import Mathlib

/-!
Verification development for the ChronoClash client-side multiplayer layer.

The definitions below are a shallow embedding of the active TypeScript code in
`src/lib/socket-service.ts` (class `SocketService`) and
`src/components/multiplayer-context-provider.tsx` (`MultiplayerProvider`):
pure React state-updater functions become Lean functions on the corresponding
state structures, and the outbound side effects of an operation (socket
emissions and dispatched window `CustomEvent`s) are returned explicitly as a
list of `Output` values.  Asynchronous outcomes (the result of an awaited
`connect()` inside `joinRoom`) are passed in as explicit parameters.
-/

/-- `Character` as imported from `game-state-provider` (only the fields the
multiplayer layer ever touches are relevant; the layer treats it opaquely). -/
structure Character where
  name : String
  health : Nat
  mana : Nat
deriving DecidableEq, Repr

/-- Room status union `'waiting' | 'ready' | 'in-progress' | 'completed'`. -/
inductive RoomStatus where
  | waiting
  | ready
  | inProgress
  | completed
deriving DecidableEq, Repr

/-- `GameData` from `socket-service.ts`.  Timestamps are modelled as `Nat`. -/
structure GameData where
  turnCount : Nat
  currentTurn : Option String
  battleLog : List String
  startTime : Option Nat
  endTime : Option Nat
  winner : Option String
deriving DecidableEq, Repr

/-- `RoomData` from `socket-service.ts` / `multiplayer-context-provider.tsx`.
Optional (`?`) and nullable fields become `Option`. -/
structure RoomData where
  id : String
  name : String
  hostId : String
  hostName : Option String
  hostCharacter : Option Character
  guestId : Option String
  guestName : Option String
  guestCharacter : Option Character
  status : RoomStatus
  players : List String
  maxPlayers : Nat
  gameData : GameData
  createdAt : Nat
  lastActivity : Nat
  isPrivate : Option Bool
deriving DecidableEq, Repr

/-- `GameAction.type` union `'ability' | 'surrender'`. -/
inductive ActionType where
  | ability
  | surrender
deriving DecidableEq, Repr

/-- `GameAction` from `socket-service.ts`. -/
structure GameAction where
  type : ActionType
  abilityId : Option String := none
  targetId : Option String := none
deriving DecidableEq, Repr

/-- Observable outbound effect of an operation: a `socket.emit` of one of the
outbound events, or a `window.dispatchEvent(new CustomEvent(...))` carrying an
error payload. -/
inductive Output where
  | emitCreateRoom (name : String) (isPrivate : Bool)
  | emitJoinRoom (roomId : String)
  | emitLeaveRoom (roomId : String)
  | emitGameAction (a : GameAction)
  | customEvent (eventName : String) (error : String)
deriving DecidableEq, Repr

/-- JS `s || undefined` on a string (the empty string becomes `undefined`). -/
def jsTruthyString (s : String) : Option String :=
  if s = "" then none else some s

/-- JS `o || undefined` on a nullable string. -/
def jsTruthyOptString (o : Option String) : Option String :=
  match o with
  | some s => jsTruthyString s
  | none => none

/-! ## Room Directory Store (`availableRooms`) -/

/-- JS `Array.prototype.findIndex` (first index satisfying the predicate;
`none` models the `-1` / `< 0` case checked by the handler). -/
def findIndex (p : α → Bool) : List α → Option Nat
  | [] => none
  | a :: l => if p a then some 0 else (findIndex p l).map (· + 1)

/-- The `room_available` handler's updater (multiplayer-context-provider.tsx,
lines 224-241): replace the entry at the found index, else append. -/
def upsertRoom (rooms : List RoomData) (r : RoomData) : List RoomData :=
  match findIndex (fun room => room.id == r.id) rooms with
  | some i => rooms.set i r
  | none => rooms ++ [r]

/-- The `room_unavailable` handler's updater (lines 243-249). -/
def removeRoom (rooms : List RoomData) (roomId : String) : List RoomData :=
  rooms.filter (fun room => room.id != roomId)

/-- An inbound directory event. -/
inductive DirectoryEvent where
  | roomAvailable (r : RoomData)
  | roomUnavailable (roomId : String)
deriving Repr

/-- Apply one directory event to the `availableRooms` list. -/
def applyDirectoryEvent (rooms : List RoomData) : DirectoryEvent → List RoomData
  | .roomAvailable r => upsertRoom rooms r
  | .roomUnavailable rid => removeRoom rooms rid

/-- The directory after a sequence of events, starting from the initial
`useState<RoomData[]>([])` value. -/
def dirOfEvents (evs : List DirectoryEvent) : List RoomData :=
  evs.foldl applyDirectoryEvent []

/-- First entry with the given id (JS `find`-style lookup used to state what
the directory reflects). -/
def findById (rooms : List RoomData) (i : String) : Option RoomData :=
  rooms.find? (fun r => r.id == i)

/-- The most recent payload the event sequence delivered for id `i`:
`some r` if the last event touching `i` was `room_available r`, `none` if it
was `room_unavailable i` or no event touched `i`. -/
def mostRecentPayload (i : String) (evs : List DirectoryEvent) : Option RoomData :=
  evs.foldl
    (fun acc e =>
      match e with
      | .roomAvailable r => if r.id == i then some r else acc
      | .roomUnavailable rid => if rid == i then none else acc)
    none

/-! ## Session State Store: inbound event updaters on the current room -/

/-- The `player_joined` handler's room updater (multiplayer-context-provider.tsx,
lines 142-175): append the player id unless it is already listed, and fill the
guest slot when it is empty and the joiner is not the host. -/
def playerJoinedUpdate (prev : RoomData) (pid pname : String) : RoomData :=
  let updatedPlayers :=
    if prev.players.contains pid then prev.players else prev.players ++ [pid]
  if jsTruthyOptString prev.guestId = none ∧ pid ≠ prev.hostId then
    { prev with players := updatedPlayers, guestId := some pid, guestName := some pname }
  else
    { prev with players := updatedPlayers }

/-- The `player_left` handler (lines 177-211), including its outer
`currentRoom.players.includes(data.playerId)` gate: filter the player out of
`players` and, when the leaver was the guest, clear the guest fields. -/
def playerLeftHandler (room : RoomData) (pid : String) : RoomData :=
  if room.players.contains pid then
    let updatedPlayers := room.players.filter (fun i => i != pid)
    if room.guestId = some pid then
      { room with players := updatedPlayers,
                  guestId := none, guestName := none, guestCharacter := none }
    else
      { room with players := updatedPlayers }
  else
    room

/-- The `character_selected` handler's room updater (lines 252-272): patch
`hostCharacter` when the id is the host's, `guestCharacter` when it is the
guest's, and otherwise return the room unchanged. -/
def characterSelectedUpdate (prev : RoomData) (pid : String) (c : Character) : RoomData :=
  if pid = prev.hostId then
    { prev with hostCharacter := some c }
  else if prev.guestId = some pid then
    { prev with guestCharacter := some c }
  else
    prev

/-- JS `Array.prototype.slice(-n)`: the last `n` elements (the whole list when
it is shorter than `n`). -/
def sliceLast (n : Nat) (l : List α) : List α :=
  l.drop (l.length - n)

/-- The `gameData` part of a `game_action_performed` payload (the handler reads
only `turnCount`, `currentTurn` and `battleLog`; a missing `battleLog` is
modelled as `[]`, matching `data.gameData.battleLog || []`). -/
structure GameActionPayload where
  turnCount : Nat
  currentTurn : Option String
  battleLog : List String
deriving DecidableEq, Repr

/-- The `game_action_performed` handler's room updater (lines 308-330): adopt
the payload's turn data and append its battle-log lines, keeping the last 20. -/
def gameActionPerformedUpdate (prev : RoomData) (p : GameActionPayload) : RoomData :=
  { prev with gameData :=
    { prev.gameData with
      turnCount := p.turnCount,
      currentTurn := p.currentTurn,
      battleLog := sliceLast 20 (prev.gameData.battleLog ++ p.battleLog) } }

/-- A whole sequence of `game_action_performed` deliveries. -/
def applyGameActions (room : RoomData) (ps : List GameActionPayload) : RoomData :=
  ps.foldl gameActionPerformedUpdate room

/-- The `game_over` handler's room updater (lines 352-382): mark the room
completed, record the winner and end time, and append a summary line (note:
without the 20-entry cap). -/
def gameOverUpdate (prev : RoomData) (winnerId winnerName : String) (now : Nat) : RoomData :=
  { prev with
    status := .completed,
    gameData :=
      { prev.gameData with
        winner := some winnerId,
        endTime := some now,
        battleLog := prev.gameData.battleLog ++ [winnerName ++ " wins the battle!"] } }

/-! ## SocketService (socket-service.ts, the active class) -/

/-- The mutable fields of the `SocketService` singleton that the operations
under study read or write.  `hasSocket` models `this.socket !== null` and
`connected` models `this.socket.connected`. -/
structure SocketState where
  hasSocket : Bool
  connected : Bool
  playerId : Option String
  playerName : Option String
  roomCache : List (String × RoomData)
deriving DecidableEq, Repr

/-- `socket?.connected || false`. -/
def socketIsConnected (s : SocketState) : Bool :=
  s.hasSocket && s.connected

/-- `SocketService.disconnect` (socket-service.ts, lines 178-185). -/
def socketDisconnect (s : SocketState) : SocketState :=
  if s.hasSocket then
    { s with hasSocket := false, connected := false, playerId := none, roomCache := [] }
  else
    s

/-- The 32-character alphabet of `generateTempRoomId`. -/
def tempRoomChars : List Char := "ABCDEFGHJKLMNPQRSTUVWXYZ23456789".data

/-- `SocketService.generateTempRoomId` (lines 254-261): six characters drawn
from `tempRoomChars`; the six `Math.floor(Math.random() * chars.length)` draws
are passed in as `rand`. -/
def generateTempRoomId (rand : Fin 6 → Fin 32) : String :=
  String.mk ((List.finRange 6).map
    (fun i => tempRoomChars.get (Fin.cast (by decide) (rand i))))

/-- `"'s Room"` (the apostrophe written as its code point). -/
def roomSuffix : String := String.mk [Char.ofNat 39, 's', ' ', 'R', 'o', 'o', 'm']

/-- JS `String.prototype.trim`: strip whitespace from both ends. -/
def jsTrim (s : String) : String :=
  String.mk (((s.data.dropWhile Char.isWhitespace).reverse.dropWhile
    Char.isWhitespace).reverse)

/-- `SocketService.createRoom` (lines 236-249): when disconnected it dispatches
a `create_room_error` CustomEvent, otherwise it emits `create_room`; in both
branches it returns a freshly generated temporary room id. -/
def socketCreateRoom (s : SocketState) (name : String) (isPrivate : Bool)
    (rand : Fin 6 → Fin 32) : String × List Output :=
  if !(socketIsConnected s) then
    (generateTempRoomId rand,
     [Output.customEvent "create_room_error" "Not connected to server"])
  else
    let roomName :=
      if jsTrim name = "" then ((jsTruthyOptString s.playerName).getD "Player") ++ roomSuffix
      else jsTrim name
    (generateTempRoomId rand, [Output.emitCreateRoom roomName isPrivate])

/-- `SocketService.joinRoom` (lines 266-279): disconnected or blank room ids
yield a `join_room_error` CustomEvent; otherwise emit `join_room` with the
trimmed id. -/
def socketJoinRoom (s : SocketState) (roomId : String) : List Output :=
  if !(socketIsConnected s) then
    [Output.customEvent "join_room_error" "Not connected to server"]
  else if jsTrim roomId = "" then
    [Output.customEvent "join_room_error" "Room ID is required"]
  else
    [Output.emitJoinRoom (jsTrim roomId)]

/-- `SocketService.performGameAction` (lines 325-332): silently drop when
disconnected, otherwise emit `game_action`. -/
def socketPerformGameAction (s : SocketState) (a : GameAction) : List Output :=
  if !(socketIsConnected s) then [] else [Output.emitGameAction a]

/-! ## MultiplayerProvider (multiplayer-context-provider.tsx) -/

/-- The provider's React state. -/
structure ProviderState where
  isConnected : Bool
  isConnecting : Bool
  connectionError : Option String
  isHost : Bool
  playerId : Option String
  playerName : String
  currentRoom : Option RoomData
  availableRooms : List RoomData
deriving DecidableEq, Repr

/-- The provider's `disconnect` (lines 423-429): tear down the service and
reset `isConnected`, `playerId`, `currentRoom` and `availableRooms`. -/
def providerDisconnect (st : ProviderState) (svc : SocketState) :
    ProviderState × SocketState :=
  ({ st with isConnected := false, playerId := none,
             currentRoom := none, availableRooms := [] },
   socketDisconnect svc)

/-- JS `name || default` for an optional string argument (`undefined` and the
empty string both fall through to the default). -/
def jsStringOr (name : Option String) (dflt : String) : String :=
  match name with
  | some s => if s = "" then dflt else s
  | none => dflt

/-- The provider's `createRoom` (lines 432-451): it **throws** (`Except.error`)
when `isConnected` is false, otherwise generates a temporary room id (with the
provider's own copy of the generator, lines 454-461), forwards to
`SocketService.createRoom`, and returns the temporary id. -/
def providerCreateRoom (st : ProviderState) (svc : SocketState)
    (name : Option String) (isPrivate : Bool) (rand randSvc : Fin 6 → Fin 32) :
    Except String (String × List Output) :=
  if !st.isConnected then
    Except.error "Not connected to multiplayer service"
  else
    let tempRoomId := generateTempRoomId rand
    let res := socketCreateRoom svc (jsStringOr name (st.playerName ++ roomSuffix))
      isPrivate randSvc
    Except.ok (tempRoomId, res.2)

/-- The provider's `joinRoom` (lines 464-478).  When already connected it
forwards immediately; when not, it awaits `connect()` whose outcome is passed
in as `connectResult` (`some id` on success), forwarding on success and
dispatching a `join_room_error` CustomEvent on failure.  It never throws. -/
def providerJoinRoom (st : ProviderState) (svc : SocketState) (roomId : String)
    (connectResult : Option String) : List Output :=
  if st.isConnected then
    socketJoinRoom svc roomId
  else
    match connectResult with
    | some pid =>
        socketJoinRoom { svc with hasSocket := true, connected := true,
                                  playerId := some pid } roomId
    | none =>
        [Output.customEvent "join_room_error" "Failed to connect to multiplayer service"]

/-- The provider's `updateOpponentHealth` (lines 514-535): no-op without a room
or connection or a truthy target id; otherwise forward a generic `damage`
ability action to the service.  The `health` argument is never read. -/
def updateOpponentHealth (st : ProviderState) (svc : SocketState)
    (health : Nat) : List Output :=
  match st.currentRoom with
  | none => []
  | some room =>
    if !st.isConnected then []
    else
      let targetPlayerId :=
        if st.isHost then jsTruthyOptString room.guestId
        else jsTruthyString room.hostId
      match targetPlayerId with
      | none => []
      | some tid =>
          socketPerformGameAction svc
            { type := .ability, abilityId := some "damage", targetId := some tid }

/-- The provider's `endBattle` (lines 538-546): no-op without a room or
connection; otherwise forward a `surrender` action.  `winnerId` is never
read. -/
def endBattle (st : ProviderState) (svc : SocketState) (winnerId : String) :
    List Output :=
  match st.currentRoom with
  | none => []
  | some _ =>
    if !st.isConnected then []
    else socketPerformGameAction svc { type := .surrender }

/-- Number of `join_room` socket emissions in an output trace. -/
def countJoinEmits (outs : List Output) : Nat :=
  (outs.filter (fun o => match o with | .emitJoinRoom _ => true | _ => false)).length

/-! ## Concrete sample states used by counterexamples and witnesses -/

/-- A fresh `gameData` record. -/
def emptyGameData : GameData :=
  { turnCount := 0, currentTurn := none, battleLog := [],
    startTime := none, endTime := none, winner := none }

/-- A well-formed waiting room hosted by `"H"` with guest `"G"`. -/
def sampleRoom : RoomData :=
  { id := "R1", name := "Arena", hostId := "H", hostName := some "Hope",
    hostCharacter := none, guestId := some "G", guestName := some "Gale",
    guestCharacter := none, status := .waiting, players := ["H", "G"],
    maxPlayers := 2, gameData := emptyGameData, createdAt := 0, lastActivity := 0,
    isPrivate := some false }

/-- Provider state: connected, hosting `sampleRoom`. -/
def connectedState : ProviderState :=
  { isConnected := true, isConnecting := false, connectionError := none,
    isHost := true, playerId := some "H", playerName := "Hope",
    currentRoom := some sampleRoom, availableRooms := [] }

/-- The same provider state with the connection flag cleared. -/
def disconnectedState : ProviderState :=
  { connectedState with isConnected := false }

/-- A live socket. -/
def connectedSocket : SocketState :=
  { hasSocket := true, connected := true, playerId := some "H",
    playerName := some "Hope", roomCache := [] }

/-- A fixed random stream for the temporary room-id generator. -/
def zeroRand : Fin 6 → Fin 32 := fun _ => 0

/-- A sample character payload. -/
def sampleChar : Character := { name := "Chronos", health := 100, mana := 50 }

/-! ## C10: the temporary room id -/

/-- C10: every `SocketService.createRoom` call returns the locally generated
temporary code: exactly 6 characters, all drawn from
`ABCDEFGHJKLMNPQRSTUVWXYZ23456789`, and equal to `generateTempRoomId rand`
whether or not the socket is connected (hence independent of the server). -/
theorem createRoom_temp_code_spec :
    ∀ (s : SocketState) (name : String) (isPrivate : Bool) (rand : Fin 6 → Fin 32),
      (socketCreateRoom s name isPrivate rand).1 = generateTempRoomId rand ∧
      (generateTempRoomId rand).length = 6 ∧
      ∀ c ∈ (generateTempRoomId rand).data, c ∈ tempRoomChars := by
  intro s name isPrivate rand
  refine ⟨?_, ?_, ?_⟩
  · unfold socketCreateRoom
    split <;> rfl
  · show ((List.finRange 6).map _).length = 6
    simp
  · intro c hc
    have hc' : c ∈ (List.finRange 6).map
        (fun i => tempRoomChars.get (Fin.cast (by decide) (rand i))) := hc
    obtain ⟨i, -, rfl⟩ := List.mem_map.mp hc'
    exact List.get_mem _ _ _

/-! ## C1: no operation-guard dedup on joinRoom -/

/-- C1 counterexample: two `joinRoom` calls in rapid succession (no
`room_joined` / `join_room_error` delivered in between, so the modelled state
is unchanged between the calls) produce two `join_room` emissions, not one:
the source has no operation guard or pending flag at all. -/
theorem joinRoom_double_call_emits_twice_cx :
    countJoinEmits (providerJoinRoom connectedState connectedSocket "R1" none ++
                    providerJoinRoom connectedState connectedSocket "R1" none) = 2 ∧
    countJoinEmits (providerJoinRoom connectedState connectedSocket "R1" none ++
                    providerJoinRoom connectedState connectedSocket "R1" none) ≠ 1 := by
  decide

/-- C1 amended: every `joinRoom` call made while connected (with a non-blank
room id) re-emits `join_room`; two successive calls therefore reach the
transport twice — there is no dedup of locally initiated operations. -/
theorem joinRoom_no_dedup_guard :
    ∀ (st : ProviderState) (svc : SocketState) (rid : String) (cr : Option String),
      st.isConnected = true → socketIsConnected svc = true → jsTrim rid ≠ "" →
      countJoinEmits (providerJoinRoom st svc rid cr ++
                      providerJoinRoom st svc rid cr) = 2 := by
  intro st svc rid cr hst hsvc htrim
  simp [providerJoinRoom, socketJoinRoom, countJoinEmits, hst, hsvc, htrim]

/-- Closed instance of `joinRoom_no_dedup_guard`. -/
theorem joinRoom_no_dedup_guard_witness :
    countJoinEmits (providerJoinRoom connectedState connectedSocket "R2" none ++
                    providerJoinRoom connectedState connectedSocket "R2" none) = 2 :=
  joinRoom_no_dedup_guard connectedState connectedSocket "R2" none rfl rfl (by decide)

/-! ## C2: game-action operations do not check the game phase -/

/-- C2 counterexample: in `connectedState` the room is still `waiting` (the
game is not `InGame`), yet both `updateOpponentHealth` and `endBattle` emit a
`game_action` — they are not silent no-ops outside of an active game. -/
theorem gameAction_emit_outside_game_cx :
    sampleRoom.status = RoomStatus.waiting ∧
    sampleRoom.gameData.winner = none ∧
    updateOpponentHealth connectedState connectedSocket 50 =
      [Output.emitGameAction
        { type := .ability, abilityId := some "damage", targetId := some "G" }] ∧
    endBattle connectedState connectedSocket "H" =
      [Output.emitGameAction { type := .surrender }] :=
  ⟨rfl, rfl, rfl, rfl⟩

/-- C2 amended: `updateOpponentHealth` and `endBattle` are silent no-ops only
when there is no current room or no connection (or, for
`updateOpponentHealth`, no truthy target id); whenever a room is present and
the client is connected they emit a `game_action` irrespective of the room
status or winner — no `InGame` / `GameOver` check exists. -/
theorem gameAction_ops_ignore_game_phase :
    ∀ (st : ProviderState) (svc : SocketState) (hp : Nat) (wid : String),
      (st.currentRoom = none →
        updateOpponentHealth st svc hp = [] ∧ endBattle st svc wid = []) ∧
      (∀ (room : RoomData) (g : String),
        st.currentRoom = some room → st.isConnected = true →
        socketIsConnected svc = true →
        endBattle st svc wid = [Output.emitGameAction { type := .surrender }] ∧
        (st.isHost = true → room.guestId = some g → g ≠ "" →
          updateOpponentHealth st svc hp =
            [Output.emitGameAction
              { type := .ability, abilityId := some "damage", targetId := some g }])) := by
  intro st svc hp wid
  refine ⟨?_, ?_⟩
  · intro hnone
    constructor <;> simp [updateOpponentHealth, endBattle, hnone]
  · intro room g hsome hconn hsock
    refine ⟨?_, ?_⟩
    · simp [endBattle, hsome, hconn, socketPerformGameAction, hsock]
    · intro hhost hguest hne
      simp [updateOpponentHealth, hsome, hconn, hhost, hguest,
            jsTruthyOptString, jsTruthyString, hne,
            socketPerformGameAction, hsock]

/-- Closed instance of `gameAction_ops_ignore_game_phase`. -/
theorem gameAction_ops_ignore_game_phase_witness :
    endBattle connectedState connectedSocket "W" =
      [Output.emitGameAction { type := .surrender }] ∧
    updateOpponentHealth connectedState connectedSocket 42 =
      [Output.emitGameAction
        { type := .ability, abilityId := some "damage", targetId := some "G" }] :=
  ⟨((gameAction_ops_ignore_game_phase connectedState connectedSocket 42 "W").2
      sampleRoom "G" rfl rfl rfl).1,
   ((gameAction_ops_ignore_game_phase connectedState connectedSocket 42 "W").2
      sampleRoom "G" rfl rfl rfl).2 rfl rfl (by decide)⟩

/-! ## C3: error propagation across the public surface -/

/-- C3 counterexample: the provider's `createRoom`, invoked while not
connected, throws (`Except.error`) instead of delivering the error through the
observer/event channel. -/
theorem createRoom_throws_when_disconnected_cx :
    providerCreateRoom disconnectedState connectedSocket none false zeroRand zeroRand =
      Except.error "Not connected to multiplayer service" := rfl

/-- C3 amended: expected failures of `joinRoom` (at both layers) and of
`SocketService.createRoom` are delivered as `*_error` CustomEvents on the same
channel as successes, but the provider-level `createRoom` invoked while not
connected throws an exception instead. -/
theorem error_channel_policy :
    ∀ (st : ProviderState) (svc : SocketState) (rid name : String)
      (nameOpt : Option String) (isPrivate : Bool) (rand rand2 : Fin 6 → Fin 32),
      (st.isConnected = false →
        providerJoinRoom st svc rid none =
          [Output.customEvent "join_room_error"
            "Failed to connect to multiplayer service"]) ∧
      (socketIsConnected svc = false →
        (socketCreateRoom svc name isPrivate rand).2 =
          [Output.customEvent "create_room_error" "Not connected to server"] ∧
        socketJoinRoom svc rid =
          [Output.customEvent "join_room_error" "Not connected to server"]) ∧
      (st.isConnected = false →
        providerCreateRoom st svc nameOpt isPrivate rand rand2 =
          Except.error "Not connected to multiplayer service") := by
  intro st svc rid name nameOpt isPrivate rand rand2
  refine ⟨?_, ?_, ?_⟩
  · intro h; simp [providerJoinRoom, h]
  · intro h
    constructor <;> simp [socketCreateRoom, socketJoinRoom, h]
  · intro h; simp [providerCreateRoom, h]

/-- Closed instance of `error_channel_policy`. -/
theorem error_channel_policy_witness :
    providerJoinRoom disconnectedState connectedSocket "R9" none =
      [Output.customEvent "join_room_error"
        "Failed to connect to multiplayer service"] ∧
    providerCreateRoom disconnectedState connectedSocket none false zeroRand zeroRand =
      Except.error "Not connected to multiplayer service" :=
  ⟨(error_channel_policy disconnectedState connectedSocket "R9" "" none false
      zeroRand zeroRand).1 rfl,
   (error_channel_policy disconnectedState connectedSocket "R9" "" none false
      zeroRand zeroRand).2.2 rfl⟩

/-! ## C5: character_selected for an unknown player id -/

/-- C5 counterexample: a `character_selected` event for id `"X"`, which is
neither the host nor the guest of `sampleRoom`, leaves the session state
completely unchanged — the event is dropped and no player record (zeroed,
patched, or otherwise) is synthesized anywhere in the state. -/
theorem characterSelected_unknown_dropped_cx :
    characterSelectedUpdate sampleRoom "X" sampleChar = sampleRoom := rfl

/-- C5 amended: `character_selected` patches `hostCharacter` when the id is
the host's and `guestCharacter` when it is the guest's; for any other id the
event is dropped (the room is returned unchanged). -/
theorem characterSelected_patch_or_drop :
    ∀ (room : RoomData) (pid : String) (c : Character),
      (pid ≠ room.hostId → room.guestId ≠ some pid →
        characterSelectedUpdate room pid c = room) ∧
      (pid = room.hostId →
        characterSelectedUpdate room pid c = { room with hostCharacter := some c }) ∧
      (pid ≠ room.hostId → room.guestId = some pid →
        characterSelectedUpdate room pid c = { room with guestCharacter := some c }) := by
  intro room pid c
  refine ⟨?_, ?_, ?_⟩
  · intro h1 h2; simp [characterSelectedUpdate, h1, h2]
  · intro h; simp [characterSelectedUpdate, h]
  · intro h1 h2; simp [characterSelectedUpdate, h1, h2]

/-- Closed instance of `characterSelected_patch_or_drop`. -/
theorem characterSelected_patch_or_drop_witness :
    characterSelectedUpdate sampleRoom "H" sampleChar =
      { sampleRoom with hostCharacter := some sampleChar } :=
  (characterSelected_patch_or_drop sampleRoom "H" sampleChar).2.1 rfl

/-! ## C8: player_left for the guest -/

/-- C8: when the departing player id is the current guest (and, as the room
invariant guarantees, listed in `players`), the `player_left` handler clears
`guestId`, `guestName` and `guestCharacter`, removes the player from
`players`, and leaves `hostId`, `hostName` and `hostCharacter` untouched. -/
theorem playerLeft_guest_frame :
    ∀ (room : RoomData) (pid : String),
      room.guestId = some pid → pid ∈ room.players →
      (playerLeftHandler room pid).guestId = none ∧
      (playerLeftHandler room pid).guestName = none ∧
      (playerLeftHandler room pid).guestCharacter = none ∧
      pid ∉ (playerLeftHandler room pid).players ∧
      (playerLeftHandler room pid).hostId = room.hostId ∧
      (playerLeftHandler room pid).hostName = room.hostName ∧
      (playerLeftHandler room pid).hostCharacter = room.hostCharacter := by
  intro room pid hg hmem
  simp [playerLeftHandler, hmem, hg, List.mem_filter]

/-- Closed instance of `playerLeft_guest_frame`. -/
theorem playerLeft_guest_frame_witness :
    (playerLeftHandler sampleRoom "G").guestId = none ∧
    (playerLeftHandler sampleRoom "G").guestName = none ∧
    (playerLeftHandler sampleRoom "G").guestCharacter = none ∧
    "G" ∉ (playerLeftHandler sampleRoom "G").players ∧
    (playerLeftHandler sampleRoom "G").hostId = sampleRoom.hostId ∧
    (playerLeftHandler sampleRoom "G").hostName = sampleRoom.hostName ∧
    (playerLeftHandler sampleRoom "G").hostCharacter = sampleRoom.hostCharacter :=
  playerLeft_guest_frame sampleRoom "G" rfl (by decide)

/-! ## C9: disconnect -/

/-- C9 counterexample: `disconnect` clears the connection, player id, current
room and directory, but `isHost` — a host attribute of the previous session —
is not reset and remains observably `true` afterwards. -/
theorem disconnect_keeps_isHost_cx :
    (providerDisconnect connectedState connectedSocket).1.currentRoom = none ∧
    (providerDisconnect connectedState connectedSocket).1.availableRooms = [] ∧
    (providerDisconnect connectedState connectedSocket).1.playerId = none ∧
    (providerDisconnect connectedState connectedSocket).1.isConnected = false ∧
    connectedState.isHost = true ∧
    (providerDisconnect connectedState connectedSocket).1.isHost = true :=
  ⟨rfl, rfl, rfl, rfl, rfl, rfl⟩

/-- C9 amended: `disconnect` resets `isConnected`, `playerId`, `currentRoom`
and `availableRooms` (and tears down the service socket, which also clears the
service-side player id and room cache when a socket existed), but it leaves
`isHost`, `isConnecting`, `connectionError` and `playerName` unchanged. -/
theorem disconnect_resets_fields :
    ∀ (st : ProviderState) (svc : SocketState),
      (providerDisconnect st svc).1.isConnected = false ∧
      (providerDisconnect st svc).1.playerId = none ∧
      (providerDisconnect st svc).1.currentRoom = none ∧
      (providerDisconnect st svc).1.availableRooms = [] ∧
      (providerDisconnect st svc).1.isHost = st.isHost ∧
      (providerDisconnect st svc).1.isConnecting = st.isConnecting ∧
      (providerDisconnect st svc).1.connectionError = st.connectionError ∧
      (providerDisconnect st svc).1.playerName = st.playerName ∧
      socketIsConnected (providerDisconnect st svc).2 = false ∧
      (svc.hasSocket = true →
        (providerDisconnect st svc).2.playerId = none ∧
        (providerDisconnect st svc).2.roomCache = []) := by
  intro st svc
  refine ⟨rfl, rfl, rfl, rfl, rfl, rfl, rfl, rfl, ?_, ?_⟩
  · by_cases h : svc.hasSocket = true <;>
      simp [providerDisconnect, socketDisconnect, socketIsConnected, h]
  · intro h
    constructor <;> simp [providerDisconnect, socketDisconnect, h]

/-- Closed instance of `disconnect_resets_fields`. -/
theorem disconnect_resets_fields_witness :
    (providerDisconnect connectedState connectedSocket).2.playerId = none ∧
    (providerDisconnect connectedState connectedSocket).2.roomCache = [] :=
  (disconnect_resets_fields connectedState connectedSocket).2.2.2.2.2.2.2.2.2 rfl

/-! ## C4: the battle log stays bounded and recent -/

/-- Taking the last `n` elements is reversing, taking `n`, reversing back. -/
theorem sliceLast_eq_reverse_take (n : Nat) (l : List α) :
    sliceLast n l = (l.reverse.take n).reverse := by
  rw [List.take_reverse, List.reverse_reverse]
  rfl

/-- Pre-truncating the left summand does not change a bounded take. -/
theorem take_append_take (n : Nat) (C D : List α) :
    (C ++ D.take n).take n = (C ++ D).take n := by
  rw [List.take_append_eq_append_take, List.take_append_eq_append_take,
    List.take_take, Nat.min_eq_left (Nat.sub_le _ _)]

/-- Pre-truncating the prefix does not change the last `n` elements. -/
theorem sliceLast_sliceLast_append (n : Nat) (X Y : List α) :
    sliceLast n (sliceLast n X ++ Y) = sliceLast n (X ++ Y) := by
  rw [sliceLast_eq_reverse_take, sliceLast_eq_reverse_take (l := X),
    sliceLast_eq_reverse_take, List.reverse_append, List.reverse_reverse,
    List.reverse_append, take_append_take]

/-- The last `n` elements are at most `n` elements. -/
theorem length_sliceLast_le (n : Nat) (l : List α) :
    (sliceLast n l).length ≤ n := by
  simp only [sliceLast, List.length_drop]
  omega

/-- The battle log after a non-empty run of `game_action_performed` events is
exactly the last 20 lines of the starting log followed by every delivered line
in arrival order. -/
theorem applyGameActions_battleLog :
    ∀ (ps : List GameActionPayload) (room : RoomData), ps ≠ [] →
      (applyGameActions room ps).gameData.battleLog =
        sliceLast 20 (room.gameData.battleLog ++
          (ps.map GameActionPayload.battleLog).flatten) := by
  intro ps
  induction ps with
  | nil => intro room h; exact absurd rfl h
  | cons p rest ih =>
    intro room _
    cases rest with
    | nil =>
      simp [applyGameActions, gameActionPerformedUpdate]
    | cons q t =>
      have step : applyGameActions room (p :: q :: t) =
          applyGameActions (gameActionPerformedUpdate room p) (q :: t) := rfl
      rw [step, ih _ (by simp)]
      show sliceLast 20 (sliceLast 20 (room.gameData.battleLog ++ p.battleLog) ++
          ((q :: t).map GameActionPayload.battleLog).flatten) = _
      rw [sliceLast_sliceLast_append, List.append_assoc]
      simp [List.flatten]

/-- C4: after any non-empty sequence of `game_action_performed` events the
stored `battleLog` has at most 20 entries and equals the last 20 lines of the
initial log extended by all delivered lines in arrival order (so it always
ends with the most recently delivered entries). -/
theorem battleLog_bounded_and_recent :
    ∀ (ps : List GameActionPayload) (room : RoomData), ps ≠ [] →
      (applyGameActions room ps).gameData.battleLog.length ≤ 20 ∧
      (applyGameActions room ps).gameData.battleLog =
        sliceLast 20 (room.gameData.battleLog ++
          (ps.map GameActionPayload.battleLog).flatten) := by
  intro ps room h
  have hlog := applyGameActions_battleLog ps room h
  exact ⟨hlog ▸ length_sliceLast_le 20 _, hlog⟩

/-- Closed instance of `battleLog_bounded_and_recent`. -/
theorem battleLog_bounded_and_recent_witness :
    ([({ turnCount := 1, currentTurn := some "G",
         battleLog := ["H used Fireball"] } : GameActionPayload)] ≠ []) ∧
    (applyGameActions sampleRoom
      [{ turnCount := 1, currentTurn := some "G",
         battleLog := ["H used Fireball"] }]).gameData.battleLog.length ≤ 20 ∧
    (applyGameActions sampleRoom
      [{ turnCount := 1, currentTurn := some "G",
         battleLog := ["H used Fireball"] }]).gameData.battleLog =
      sliceLast 20 (sampleRoom.gameData.battleLog ++
        ([({ turnCount := 1, currentTurn := some "G",
             battleLog := ["H used Fireball"] } : GameActionPayload)].map
          GameActionPayload.battleLog).flatten) :=
  ⟨by decide,
   battleLog_bounded_and_recent _ sampleRoom (by decide)⟩

/-! ## C6: the Room invariant under player_joined / player_left -/

/-- A property required of the value inside an `Option`, when present. -/
def optionForall (o : Option α) (P : α → Prop) : Prop :=
  ∀ g, o = some g → P g

instance (o : Option α) (P : α → Prop) [DecidablePred P] :
    Decidable (optionForall o P) :=
  match o with
  | none => isTrue (fun _ h => nomatch h)
  | some a =>
    if h : P a then
      isTrue (fun g hg => by cases hg; exact h)
    else
      isFalse (fun hall => h (hall a rfl))

/-- The spec's Room invariant: unique roster of bounded size, host listed
whenever the roster is non-empty, guest listed and distinct from the host. -/
def roomInvariant (r : RoomData) : Prop :=
  r.players.Nodup ∧
  (r.players = [] ∨ r.hostId ∈ r.players) ∧
  optionForall r.guestId (fun g => g ∈ r.players ∧ g ≠ r.hostId) ∧
  r.players.length ≤ r.maxPlayers

instance (r : RoomData) : Decidable (roomInvariant r) := by
  unfold roomInvariant
  infer_instance

/-- C6 counterexample: `sampleRoom` satisfies the Room invariant, yet
`player_left` for the host leaves a non-empty roster that no longer contains
`hostId`, and `player_joined` for a third player grows the roster to 3 despite
`maxPlayers = 2` — both handlers can break the invariant. -/
theorem room_invariant_broken_cx :
    roomInvariant sampleRoom ∧
    (playerLeftHandler sampleRoom "H").players = ["G"] ∧
    (playerLeftHandler sampleRoom "H").hostId = "H" ∧
    ¬ roomInvariant (playerLeftHandler sampleRoom "H") ∧
    (playerJoinedUpdate sampleRoom "X" "Xena").players.length = 3 ∧
    (playerJoinedUpdate sampleRoom "X" "Xena").maxPlayers = 2 ∧
    ¬ roomInvariant (playerJoinedUpdate sampleRoom "X" "Xena") := by
  decide

/-- C6 amended: both handlers preserve roster uniqueness and the guest part of
the invariant; `player_joined` preserves host membership when the host is
already listed, and `player_left` preserves the size bound — but neither
enforces `maxPlayers` on join, nor host membership on the host's departure. -/
theorem handlers_preserve_partial_invariant :
    ∀ (room : RoomData) (pid pname : String),
      room.players.Nodup →
      optionForall room.guestId (fun g => g ∈ room.players ∧ g ≠ room.hostId) →
      ((playerJoinedUpdate room pid pname).players.Nodup ∧
       optionForall (playerJoinedUpdate room pid pname).guestId
         (fun g => g ∈ (playerJoinedUpdate room pid pname).players ∧
           g ≠ (playerJoinedUpdate room pid pname).hostId) ∧
       (room.hostId ∈ room.players →
         (playerJoinedUpdate room pid pname).hostId ∈
           (playerJoinedUpdate room pid pname).players)) ∧
      ((playerLeftHandler room pid).players.Nodup ∧
       optionForall (playerLeftHandler room pid).guestId
         (fun g => g ∈ (playerLeftHandler room pid).players ∧
           g ≠ (playerLeftHandler room pid).hostId) ∧
       (room.players.length ≤ room.maxPlayers →
         (playerLeftHandler room pid).players.length ≤
           (playerLeftHandler room pid).maxPlayers)) := by
  intro room pid pname hnd hguest
  constructor
  · -- player_joined
    by_cases hcond : jsTruthyOptString room.guestId = none ∧ pid ≠ room.hostId
    · have heq : playerJoinedUpdate room pid pname =
          { room with
            players := if room.players.contains pid then room.players
                       else room.players ++ [pid],
            guestId := some pid, guestName := some pname } := by
        unfold playerJoinedUpdate
        rw [if_pos hcond]
      rw [heq]
      refine ⟨?_, ?_, ?_⟩
      · by_cases hmem : pid ∈ room.players <;>
          simp [hmem, hnd, List.nodup_append]
      · intro g hg
        have hg' : some pid = some g := hg
        cases hg'
        refine ⟨?_, hcond.2⟩
        by_cases hmem : pid ∈ room.players <;> simp [hmem]
      · intro hh
        by_cases hmem : pid ∈ room.players <;> simp [hmem, hh]
    · have heq : playerJoinedUpdate room pid pname =
          { room with
            players := if room.players.contains pid then room.players
                       else room.players ++ [pid] } := by
        unfold playerJoinedUpdate
        rw [if_neg hcond]
      rw [heq]
      refine ⟨?_, ?_, ?_⟩
      · by_cases hmem : pid ∈ room.players <;>
          simp [hmem, hnd, List.nodup_append]
      · intro g hg
        have hg' : room.guestId = some g := hg
        obtain ⟨hgm, hgh⟩ := hguest g hg'
        refine ⟨?_, hgh⟩
        by_cases hmem : pid ∈ room.players <;> simp [hmem, hgm]
      · intro hh
        by_cases hmem : pid ∈ room.players <;> simp [hmem, hh]
  · -- player_left
    by_cases hmem : pid ∈ room.players
    · by_cases hg : room.guestId = some pid
      · refine ⟨?_, ?_, ?_⟩
        · simpa [playerLeftHandler, hmem, hg] using hnd.filter _
        · intro g hgg
          simp [playerLeftHandler, hmem, hg] at hgg
        · intro hb
          have hle := List.length_filter_le (fun i => i != pid) room.players
          simp [playerLeftHandler, hmem, hg]
          omega
      · refine ⟨?_, ?_, ?_⟩
        · simpa [playerLeftHandler, hmem, hg] using hnd.filter _
        · intro g hgg
          have hgg' : room.guestId = some g := by
            simpa [playerLeftHandler, hmem, hg] using hgg
          have hne : g ≠ pid := fun h => hg (h ▸ hgg')
          have := hguest g hgg'
          simp_all [playerLeftHandler, List.mem_filter]
        · intro hb
          have hle := List.length_filter_le (fun i => i != pid) room.players
          simp [playerLeftHandler, hmem, hg]
          omega
    · simp_all [playerLeftHandler, optionForall]

/-- Closed instance of `handlers_preserve_partial_invariant`. -/
theorem handlers_preserve_partial_invariant_witness :
    (playerJoinedUpdate sampleRoom "X" "Xena").players.Nodup :=
  (handlers_preserve_partial_invariant sampleRoom "X" "Xena"
    (by decide) (by decide)).1.1

/-! ## C7: the directory store is an idempotent upsert keyed by id -/

/-- Unfolding lemma for `findIndex` on a cons. -/
theorem findIndex_cons (p : α → Bool) (a : α) (l : List α) :
    findIndex p (a :: l) = if p a then some 0 else (findIndex p l).map (· + 1) :=
  rfl

/-- Upserting a room whose id matches the head replaces the head. -/
theorem upsert_cons_hit (a : RoomData) (l : List RoomData) (r : RoomData)
    (h : a.id = r.id) : upsertRoom (a :: l) r = r :: l := by
  simp [upsertRoom, findIndex_cons, h]

/-- Upserting past a non-matching head recurses into the tail. -/
theorem upsert_cons_miss (a : RoomData) (l : List RoomData) (r : RoomData)
    (h : ¬a.id = r.id) : upsertRoom (a :: l) r = a :: upsertRoom l r := by
  simp only [upsertRoom, findIndex_cons, beq_iff_eq, h, if_false]
  cases hf : findIndex (fun room => room.id == r.id) l <;> simp [hf]

/-- Every id in an upserted directory was already present or is the new id. -/
theorem mem_ids_upsert (l : List RoomData) (r : RoomData) (x : String)
    (hx : x ∈ (upsertRoom l r).map RoomData.id) :
    x ∈ l.map RoomData.id ∨ x = r.id := by
  induction l with
  | nil =>
    right
    simpa [upsertRoom, findIndex] using hx
  | cons a l ih =>
    by_cases h : a.id = r.id
    · rw [upsert_cons_hit a l r h] at hx
      simp only [List.map_cons, List.mem_cons] at hx ⊢
      rcases hx with rfl | hx
      · exact Or.inr rfl
      · exact Or.inl (Or.inr hx)
    · rw [upsert_cons_miss a l r h] at hx
      simp only [List.map_cons, List.mem_cons] at hx ⊢
      rcases hx with rfl | hx
      · exact Or.inl (Or.inl rfl)
      · rcases ih hx with h1 | h1
        · exact Or.inl (Or.inr h1)
        · exact Or.inr h1

/-- Upserting preserves distinctness of the stored ids. -/
theorem ids_nodup_upsert (l : List RoomData) (r : RoomData)
    (h : (l.map RoomData.id).Nodup) :
    ((upsertRoom l r).map RoomData.id).Nodup := by
  induction l with
  | nil => simp [upsertRoom, findIndex]
  | cons a l ih =>
    simp only [List.map_cons, List.nodup_cons] at h
    by_cases hh : a.id = r.id
    · rw [upsert_cons_hit a l r hh]
      simp only [List.map_cons, List.nodup_cons]
      exact ⟨hh ▸ h.1, h.2⟩
    · rw [upsert_cons_miss a l r hh]
      simp only [List.map_cons, List.nodup_cons]
      refine ⟨fun hmem => ?_, ih h.2⟩
      rcases mem_ids_upsert l r a.id hmem with h1 | h1
      · exact h.1 h1
      · exact hh h1

/-- Removal preserves distinctness of the stored ids. -/
theorem ids_nodup_remove (l : List RoomData) (rid : String)
    (h : (l.map RoomData.id).Nodup) :
    ((removeRoom l rid).map RoomData.id).Nodup :=
  ((List.filter_sublist l).map RoomData.id).nodup h

/-- Each directory event preserves distinctness of the stored ids. -/
theorem ids_nodup_applyDirectoryEvent (rooms : List RoomData) (e : DirectoryEvent)
    (h : (rooms.map RoomData.id).Nodup) :
    ((applyDirectoryEvent rooms e).map RoomData.id).Nodup := by
  cases e with
  | roomAvailable r => exact ids_nodup_upsert rooms r h
  | roomUnavailable rid => exact ids_nodup_remove rooms rid h

/-- Folding any event sequence from a duplicate-free directory keeps the ids
duplicate-free. -/
theorem ids_nodup_foldl :
    ∀ (evs : List DirectoryEvent) (rooms : List RoomData),
      (rooms.map RoomData.id).Nodup →
      ((evs.foldl applyDirectoryEvent rooms).map RoomData.id).Nodup := by
  intro evs
  induction evs with
  | nil => intro rooms h; exact h
  | cons e evs ih =>
    intro rooms h
    exact ih _ (ids_nodup_applyDirectoryEvent rooms e h)

/-- Unfolding lemma for `findById` on a cons. -/
theorem findById_cons (a : RoomData) (l : List RoomData) (i : String) :
    findById (a :: l) i = if a.id = i then some a else findById l i := by
  by_cases h : a.id = i <;> simp [findById, List.find?_cons, h]

/-- Unfolding lemma for `removeRoom` on a cons. -/
theorem removeRoom_cons (a : RoomData) (l : List RoomData) (rid : String) :
    removeRoom (a :: l) rid =
      if a.id = rid then removeRoom l rid else a :: removeRoom l rid := by
  by_cases h : a.id = rid <;> simp [removeRoom, List.filter_cons, h]

/-- Lookup after a removal: gone for the removed id, unchanged otherwise. -/
theorem findById_remove (l : List RoomData) (rid i : String) :
    findById (removeRoom l rid) i = if rid = i then none else findById l i := by
  induction l with
  | nil => simp [removeRoom, findById]
  | cons a l ih =>
    by_cases har : a.id = rid
    · rw [removeRoom_cons, if_pos har, ih]
      by_cases hri : rid = i
      · simp [hri]
      · have hai : ¬a.id = i := fun h => hri ((har.symm.trans h))
        simp [hri, findById_cons, hai]
    · rw [removeRoom_cons, if_neg har, findById_cons]
      by_cases hai : a.id = i
      · have hri : ¬rid = i := fun h => har (hai.trans h.symm)
        simp [hai, hri, findById_cons]
      · simp [hai, ih, findById_cons]

/-- Lookup after an upsert: the new payload for its own id, unchanged for any
other id. -/
theorem findById_upsert (l : List RoomData) (r : RoomData) (i : String) :
    findById (upsertRoom l r) i = if r.id = i then some r else findById l i := by
  induction l with
  | nil =>
    by_cases h : r.id = i <;>
      simp [upsertRoom, findIndex, findById, List.find?_cons, h]
  | cons a l ih =>
    by_cases hh : a.id = r.id
    · rw [upsert_cons_hit a l r hh, findById_cons, findById_cons]
      by_cases hri : r.id = i
      · simp [hri]
      · have hai : ¬a.id = i := fun h => hri (hh.symm.trans h)
        simp [hri, hai]
    · rw [upsert_cons_miss a l r hh, findById_cons, findById_cons]
      by_cases hai : a.id = i
      · have hri : ¬r.id = i := fun h => hh (hai.trans h.symm)
        simp [hai, hri]
      · simp [hai, ih]

/-- One directory event transforms the lookup result exactly like the
accumulator step of `mostRecentPayload`. -/
theorem findById_applyDirectoryEvent (rooms : List RoomData) (e : DirectoryEvent)
    (i : String) :
    findById (applyDirectoryEvent rooms e) i =
      (fun acc e =>
        match e with
        | DirectoryEvent.roomAvailable r => if r.id == i then some r else acc
        | DirectoryEvent.roomUnavailable rid => if rid == i then none else acc)
        (findById rooms i) e := by
  cases e with
  | roomAvailable r => simp [applyDirectoryEvent, findById_upsert]
  | roomUnavailable rid => simp [applyDirectoryEvent, findById_remove]

/-- Lookup commutes with folding an event sequence. -/
theorem findById_foldl (i : String) :
    ∀ (evs : List DirectoryEvent) (rooms : List RoomData),
      findById (evs.foldl applyDirectoryEvent rooms) i =
        evs.foldl
          (fun acc e =>
            match e with
            | DirectoryEvent.roomAvailable r => if r.id == i then some r else acc
            | DirectoryEvent.roomUnavailable rid => if rid == i then none else acc)
          (findById rooms i) := by
  intro evs
  induction evs with
  | nil => intro rooms; rfl
  | cons e evs ih =>
    intro rooms
    rw [List.foldl_cons, List.foldl_cons, ih, findById_applyDirectoryEvent]

/-- In a directory with distinct ids, `findIndex` locates exactly the position
holding the matching id. -/
theorem findIndex_id_of_nodup :
    ∀ (l : List RoomData) (j : Nat) (hj : j < l.length) (r : RoomData),
      (l.map RoomData.id).Nodup → (l.get ⟨j, hj⟩).id = r.id →
      findIndex (fun room => room.id == r.id) l = some j := by
  intro l
  induction l with
  | nil => intro j hj r hnd hid; simp at hj
  | cons a l ih =>
    intro j hj r hnd hid
    cases j with
    | zero =>
      have : a.id = r.id := hid
      simp [findIndex_cons, this]
    | succ n =>
      have hn : n < l.length := by simpa using hj
      have hid' : (l.get ⟨n, hn⟩).id = r.id := hid
      simp only [List.map_cons, List.nodup_cons] at hnd
      have hne : ¬a.id = r.id := by
        intro h
        exact hnd.1 (h.trans hid'.symm ▸ List.mem_map_of_mem RoomData.id (l.get_mem n hn))
      simp [findIndex_cons, hne, ih n hn r hnd.2 hid']

/-- In a directory with distinct ids, upserting a payload whose id already
sits at position `j` replaces exactly position `j`, leaving every other entry
where it was. -/
theorem upsert_set_of_nodup (l : List RoomData) (r : RoomData) (j : Nat)
    (hj : j < l.length) (hnd : (l.map RoomData.id).Nodup)
    (hid : (l.get ⟨j, hj⟩).id = r.id) :
    upsertRoom l r = l.set j r := by
  unfold upsertRoom
  rw [findIndex_id_of_nodup l j hj r hnd hid]

/-- C7: for every sequence of `room_available` / `room_unavailable` events the
directory holds at most one entry per room id; the entry for each id is the
most recent payload delivered for that id; and an update for an id already
present replaces that entry in place, preserving the positions of all other
entries. -/
theorem directory_store_spec :
    (∀ evs : List DirectoryEvent, ((dirOfEvents evs).map RoomData.id).Nodup) ∧
    (∀ (evs : List DirectoryEvent) (i : String),
      findById (dirOfEvents evs) i = mostRecentPayload i evs) ∧
    (∀ (rooms : List RoomData) (r : RoomData) (j : Nat) (hj : j < rooms.length),
      (rooms.map RoomData.id).Nodup → (rooms.get ⟨j, hj⟩).id = r.id →
      upsertRoom rooms r = rooms.set j r) := by
  refine ⟨?_, ?_, ?_⟩
  · intro evs
    exact ids_nodup_foldl evs [] (by simp)
  · intro evs i
    rw [dirOfEvents, mostRecentPayload, findById_foldl]
    rfl
  · intro rooms r j hj hnd hid
    exact upsert_set_of_nodup rooms r j hj hnd hid

/-- A second room, distinct id. -/
def sampleRoomB : RoomData :=
  { sampleRoom with id := "R2", name := "Coliseum" }

/-- A fresh payload for the id of `sampleRoom`. -/
def sampleRoomV2 : RoomData :=
  { sampleRoom with name := "Arena II" }

/-- Closed instance of `directory_store_spec`. -/
theorem directory_store_spec_witness :
    ((dirOfEvents [DirectoryEvent.roomAvailable sampleRoom,
        DirectoryEvent.roomAvailable sampleRoomB]).map RoomData.id).Nodup ∧
    findById (dirOfEvents [DirectoryEvent.roomAvailable sampleRoom]) "R1" =
      mostRecentPayload "R1" [DirectoryEvent.roomAvailable sampleRoom] ∧
    upsertRoom [sampleRoom, sampleRoomB] sampleRoomV2 =
      [sampleRoom, sampleRoomB].set 0 sampleRoomV2 :=
  ⟨directory_store_spec.1 _, directory_store_spec.2.1 _ _,
   directory_store_spec.2.2 [sampleRoom, sampleRoomB] sampleRoomV2 0
     (by decide) (by decide) (by decide)⟩
